import Mathlib

/-
Verification of the shop-backend e-commerce repository.

This file gives a shallow embedding, in Lean 4, of the parts of the code
that the specification's claims are about:

* `products/models.py`  — `Product` pricing / stock properties and save hook,
  `ProductImage.save` (primary-image uniqueness);
* `payments/tasks.py`   — the M-Pesa callback task with its retry logic and
  the periodic monitoring / reconciliation sweeps;
* `orders/serializers.py`, `orders/tasks.py`, `products/views.py`,
  `inventory/tasks.py` — the operations that write `Product.stock_quantity`.

Conventions: `Decimal` columns are embedded as `ℚ` (exact decimal
arithmetic), datetimes as `Int` (seconds), nullable columns as `Option`,
and database tables as lists of records.  Python truthiness of a nullable
`Decimal` (`None` and `Decimal('0')` are falsy) is `decimalTruthy`.
-/

/-- Python truthiness of an optional Decimal value: `None` and `0` are falsy,
every other value is truthy. -/
def decimalTruthy : Option ℚ → Bool
  | none => false
  | some v => v != 0

/-- The fields of `products.models.Product` that the pricing, stock and
save-hook logic reads or writes (`products/models.py`). -/
structure Product where
  name : String
  sku : String
  slug : String
  price : ℚ
  discount_percentage : ℚ
  sale_price : Option ℚ
  sale_starts_at : Option Int
  sale_ends_at : Option Int
  stock_quantity : Int
  low_stock_threshold : Int
  preorder_available : Bool
  backorder_allowed : Bool
  restock_date : Option Int
  is_active : Bool
  is_on_sale : Bool
deriving DecidableEq

/-- `Product.is_sale_active` (products/models.py:299-306): true when either
sale boundary is null, otherwise true iff `sale_starts_at <= now <= sale_ends_at`. -/
def Product.is_sale_active (p : Product) (now : Int) : Bool :=
  match p.sale_starts_at, p.sale_ends_at with
  | some s, some e => decide (s ≤ now) && decide (now ≤ e)
  | _, _ => true

/-- `Product.final_price` (products/models.py:316-321): price after
`discount_percentage`. -/
def Product.final_price (p : Product) : ℚ :=
  if p.discount_percentage > 0 then p.price - p.price * p.discount_percentage / 100
  else p.price

/-- `Product.current_price` (products/models.py:308-314): the sale price when
it is truthy and the sale window is active, else `final_price`. -/
def Product.current_price (p : Product) (now : Int) : ℚ :=
  if decimalTruthy p.sale_price && p.is_sale_active now then p.sale_price.getD 0
  else p.final_price

/-- `Product.savings_amount` (products/models.py:323-326). -/
def Product.savings_amount (p : Product) (now : Int) : ℚ :=
  p.price - p.current_price now

/-- `Product.is_low_stock` (products/models.py:359-362). -/
def Product.is_low_stock (p : Product) : Bool :=
  decide (0 < p.stock_quantity) && decide (p.stock_quantity ≤ p.low_stock_threshold)

/-- `Product.is_in_stock` (products/models.py:364-367). -/
def Product.is_in_stock (p : Product) : Bool :=
  decide (p.stock_quantity > 0)

/-- `Product.stock_status` (products/models.py:376-393). -/
def Product.stock_status (p : Product) : String :=
  if p.is_in_stock then
    if p.is_low_stock then "low_stock" else "in_stock"
  else if p.preorder_available then "preorder"
  else if p.backorder_allowed then "backorder"
  else if p.restock_date.isSome then "out_of_stock_restock_scheduled"
  else "out_of_stock"

/-- `Product.save` (products/models.py:283-293): fills in an empty slug from
`slugify(f"{name}-{sku}")` and auto-adjusts `is_on_sale`; the slugify function
itself is framework code, so it is passed as a parameter. -/
def Product.save (slugify : String → String) (now : Int) (p : Product) : Product :=
  let p1 := if p.slug = "" then { p with slug := slugify (p.name ++ "-" ++ p.sku) } else p
  if decimalTruthy p1.sale_price && p1.is_sale_active now then
    { p1 with is_on_sale := true }
  else if !decimalTruthy p1.sale_price && decide (p1.discount_percentage = 0) then
    { p1 with is_on_sale := false }
  else p1

/-- A concrete product used to instantiate the universally quantified
theorems below. -/
def sampleProduct : Product :=
  { name := "Amp", sku := "A1", slug := "amp-a1", price := 100,
    discount_percentage := 0, sale_price := none, sale_starts_at := none,
    sale_ends_at := none, stock_quantity := 5, low_stock_threshold := 10,
    preorder_available := false, backorder_allowed := false,
    restock_date := none, is_active := true, is_on_sale := false }

/-- C3: for every product, `current_price` equals `sale_price` whenever
`sale_price` is set (non-null and non-zero) and the sale window is active;
otherwise it equals `price` reduced by `discount_percentage`
(`price - price * discount_percentage / 100` when `discount_percentage > 0`,
else `price`); and `savings_amount` always equals `price - current_price`. -/
theorem C3_current_price_and_savings (p : Product) (now : Int) :
    (∀ v : ℚ, p.sale_price = some v → v ≠ 0 → p.is_sale_active now = true →
      p.current_price now = v)
    ∧ ((p.sale_price = none ∨ p.sale_price = some 0 ∨ p.is_sale_active now = false) →
      p.current_price now =
        if p.discount_percentage > 0 then p.price - p.price * p.discount_percentage / 100
        else p.price)
    ∧ p.savings_amount now = p.price - p.current_price now := by
  refine ⟨?_, ?_, rfl⟩
  · intro v hv hne hact
    simp [Product.current_price, decimalTruthy, hv, hne, hact]
  · intro h
    rcases h with h | h | h <;>
      simp [Product.current_price, Product.final_price, decimalTruthy, h]

/-- A concrete product with an always-active sale price of 80. -/
def saleProduct : Product := { sampleProduct with sale_price := some 80 }

/-- Witness for C3 at a concrete product: an active sale price of 80 wins
over the list price of 100, and the savings amount is 20. -/
theorem C3_current_price_and_savings_witness :
    saleProduct.current_price 0 = 80 ∧ saleProduct.savings_amount 0 = 100 - 80 := by
  have h := C3_current_price_and_savings saleProduct 0
  refine ⟨h.1 80 rfl (by norm_num) (by decide), ?_⟩
  rw [h.2.2, h.1 80 rfl (by norm_num) (by decide)]
  norm_num [saleProduct, sampleProduct]

/-- C8: `stock_status` is `"low_stock"` exactly when
`0 < stock_quantity ≤ low_stock_threshold`, `"in_stock"` exactly when
`stock_quantity > 0` and `stock_quantity > low_stock_threshold`, and for
`stock_quantity ≤ 0` it is, in priority order, `"preorder"`, `"backorder"`,
`"out_of_stock_restock_scheduled"` (when a restock date is set), else
`"out_of_stock"`. -/
theorem C8_stock_status (p : Product) :
    (p.stock_status = "low_stock" ↔
      0 < p.stock_quantity ∧ p.stock_quantity ≤ p.low_stock_threshold)
    ∧ (p.stock_status = "in_stock" ↔
      0 < p.stock_quantity ∧ p.low_stock_threshold < p.stock_quantity)
    ∧ (p.stock_quantity ≤ 0 →
      p.stock_status =
        if p.preorder_available then "preorder"
        else if p.backorder_allowed then "backorder"
        else if p.restock_date.isSome then "out_of_stock_restock_scheduled"
        else "out_of_stock") := by
  unfold Product.stock_status Product.is_in_stock Product.is_low_stock
  refine ⟨?_, ?_, ?_⟩
  · split_ifs <;> simp_all
  · split_ifs <;> simp_all
  · intro h
    split_ifs <;> simp_all <;> omega

/-- A concrete product that is out of stock with preorders enabled. -/
def preorderProduct : Product :=
  { sampleProduct with stock_quantity := 0, preorder_available := true }

/-- Witness for C8 at a concrete product: with zero stock and preorders
enabled the status is `"preorder"`. -/
theorem C8_stock_status_witness : preorderProduct.stock_status = "preorder" := by
  have h := C8_stock_status preorderProduct
  rw [h.2.2 (by decide)]
  rfl

/-- Truthiness of an optional Decimal spelled out: truthy means non-null and
non-zero. -/
theorem decimalTruthy_iff (o : Option ℚ) :
    decimalTruthy o = true ↔ o ≠ none ∧ o ≠ some 0 := by
  cases o <;> simp [decimalTruthy]

/-- Falsiness of an optional Decimal spelled out: falsy means null or zero. -/
theorem decimalTruthy_eq_false (o : Option ℚ) :
    decimalTruthy o = false ↔ o = none ∨ o = some 0 := by
  cases o <;> simp [decimalTruthy]

/-- Rewriting the slug does not change whether the sale window is active. -/
theorem slug_update_is_sale_active (p : Product) (s : String) (now : Int) :
    Product.is_sale_active { p with slug := s } now = p.is_sale_active now := rfl

/-- A concrete product whose sale price is the (falsy) Decimal zero and whose
sale window has only an end boundary. -/
def zeroSaleProduct : Product :=
  { sampleProduct with sale_price := some 0, sale_ends_at := some 5 }

/-- Counterexample to C9: `zeroSaleProduct` has a non-null `sale_price` (zero)
and only one sale boundary set, so the claim says `current_price = sale_price`
at every time; but at time 10 the code returns the regular price 100, because
`Decimal('0')` is falsy in `if self.sale_price and self.is_sale_active`. -/
theorem C9_counterexample :
    zeroSaleProduct.sale_price = some 0
    ∧ zeroSaleProduct.sale_starts_at = none
    ∧ zeroSaleProduct.is_sale_active 10 = true
    ∧ zeroSaleProduct.current_price 10 ≠ 0 := by
  refine ⟨rfl, rfl, rfl, ?_⟩
  show (100 : ℚ) ≠ 0
  norm_num

/-- C9 amended: if either `sale_starts_at` or `sale_ends_at` is null,
`is_sale_active` is true regardless of the current time; consequently a
product with a non-null and non-zero `sale_price` and only one (or neither)
sale boundary set has `current_price` equal to `sale_price` at every time. -/
theorem C9_null_boundary_sale (p : Product) (now : Int)
    (hb : p.sale_starts_at = none ∨ p.sale_ends_at = none) :
    p.is_sale_active now = true
    ∧ (∀ v : ℚ, p.sale_price = some v → v ≠ 0 → p.current_price now = v) := by
  have hact : p.is_sale_active now = true := by
    rcases hb with h | h
    · simp [Product.is_sale_active, h]
    · cases hs : p.sale_starts_at <;> simp [Product.is_sale_active, h, hs]
  refine ⟨hact, fun v hv hnz => ?_⟩
  simp [Product.current_price, decimalTruthy, hv, hnz, hact]

/-- Witness for the amended C9: sale price 80 with only an end boundary is
honoured at a time past that boundary. -/
theorem C9_null_boundary_sale_witness :
    ({ saleProduct with sale_ends_at := some 5 } : Product).is_sale_active 10 = true
    ∧ ({ saleProduct with sale_ends_at := some 5 } : Product).current_price 10 = 80 := by
  have h := C9_null_boundary_sale { saleProduct with sale_ends_at := some 5 } 10 (Or.inl rfl)
  exact ⟨h.1, h.2 80 rfl (by norm_num)⟩

/-- A concrete product marked on sale whose sale price is the falsy Decimal
zero (sale window unrestricted, no percentage discount). -/
def zeroSaleOnSaleProduct : Product :=
  { sampleProduct with sale_price := some 0, is_on_sale := true }

/-- Counterexample to C10: `zeroSaleOnSaleProduct` has a set (non-null)
`sale_price` and an active sale window, so the claim says `save` sets
`is_on_sale` to true; but the code takes the `elif not self.sale_price`
branch (zero is falsy) and sets it to false. -/
theorem C10_counterexample :
    zeroSaleOnSaleProduct.sale_price.isSome = true
    ∧ zeroSaleOnSaleProduct.is_sale_active 0 = true
    ∧ zeroSaleOnSaleProduct.is_on_sale = true
    ∧ (Product.save id 0 zeroSaleOnSaleProduct).is_on_sale = false := by
  refine ⟨rfl, rfl, rfl, ?_⟩
  simp [Product.save, zeroSaleOnSaleProduct, sampleProduct, decimalTruthy]

/-- C10 amended: `Product.save` updates `is_on_sale` only in two cases — true
when `sale_price` is non-null and non-zero and the sale window is active,
false when `sale_price` is null or zero and `discount_percentage` is 0 — and
otherwise leaves it at its previous value; every other field except the
auto-generated slug is saved as given (the slug itself is only rewritten when
it was empty). -/
theorem C10_save_frame (slugify : String → String) (now : Int) (p : Product) :
    (Product.save slugify now p).is_on_sale =
      (if (p.sale_price ≠ none ∧ p.sale_price ≠ some 0) ∧ p.is_sale_active now = true then true
       else if (p.sale_price = none ∨ p.sale_price = some 0) ∧ p.discount_percentage = 0 then false
       else p.is_on_sale)
    ∧ (Product.save slugify now p).name = p.name
    ∧ (Product.save slugify now p).sku = p.sku
    ∧ (Product.save slugify now p).price = p.price
    ∧ (Product.save slugify now p).discount_percentage = p.discount_percentage
    ∧ (Product.save slugify now p).sale_price = p.sale_price
    ∧ (Product.save slugify now p).sale_starts_at = p.sale_starts_at
    ∧ (Product.save slugify now p).sale_ends_at = p.sale_ends_at
    ∧ (Product.save slugify now p).stock_quantity = p.stock_quantity
    ∧ (Product.save slugify now p).low_stock_threshold = p.low_stock_threshold
    ∧ (Product.save slugify now p).preorder_available = p.preorder_available
    ∧ (Product.save slugify now p).backorder_allowed = p.backorder_allowed
    ∧ (Product.save slugify now p).restock_date = p.restock_date
    ∧ (Product.save slugify now p).is_active = p.is_active
    ∧ (p.slug ≠ "" → (Product.save slugify now p).slug = p.slug)
    ∧ (p.slug = "" → (Product.save slugify now p).slug = slugify (p.name ++ "-" ++ p.sku)) := by
  by_cases hs : p.slug = "" <;>
    · simp only [Product.save, hs, if_true, if_false, reduceIte, slug_update_is_sale_active]
      split_ifs <;>
        simp_all [decimalTruthy_iff, decimalTruthy_eq_false,
          Decidable.not_and_iff_or_not, not_not]

/-- Witness for the amended C10: saving the sample product (non-empty slug, no
sale price, zero discount) keeps its slug and price and clears `is_on_sale`. -/
theorem C10_save_frame_witness :
    (Product.save id 0 sampleProduct).slug = sampleProduct.slug
    ∧ (Product.save id 0 sampleProduct).price = sampleProduct.price := by
  obtain ⟨h1, h2, h3, h4, h5, h6, h7, h8, h9, h10, h11, h12, h13, h14, h15, h16⟩ :=
    C10_save_frame id 0 sampleProduct
  exact ⟨h15 (by decide), h4⟩

/-- The fields of `products.models.ProductImage` that its save hook reads or
writes (products/models.py:461-480); `pk` is the database primary key, and
`product` the id of the owning product. -/
structure ProductImage where
  pk : Nat
  product : Nat
  is_primary : Bool
deriving DecidableEq

/-- Row effect of
`ProductImage.objects.filter(product=..., is_primary=True).update(is_primary=False)`. -/
def clearPrimaryRow (productId : Nat) (r : ProductImage) : ProductImage :=
  if r.product = productId ∧ r.is_primary = true then { r with is_primary := false } else r

/-- The framework `super().save()` on a model instance: update the row with
the same primary key in place when it exists, insert the row otherwise. -/
def upsertRow (img : ProductImage) (db : List ProductImage) : List ProductImage :=
  if db.any (fun r => r.pk == img.pk) then
    db.map (fun r => if r.pk == img.pk then img else r)
  else db ++ [img]

/-- `ProductImage.save` (products/models.py:476-480) acting on the image
table: when the saved image is primary, first clear `is_primary` on every
image of the same product; then the framework `save` upserts the row by
primary key. -/
def ProductImage.save (img : ProductImage) (db : List ProductImage) : List ProductImage :=
  upsertRow img (if img.is_primary then db.map (clearPrimaryRow img.product) else db)

/-- Whether a row is a primary image of the given product. -/
def isPrimaryFor (productId : Nat) (r : ProductImage) : Bool :=
  r.product == productId && r.is_primary

/-- Number of primary images of a product in the table. -/
def countPrimary (productId : Nat) (db : List ProductImage) : Nat :=
  db.countP (isPrimaryFor productId)

/-- The primary keys of the table rows. -/
def pks (db : List ProductImage) : List Nat := db.map (fun r => r.pk)

/-- Well-formedness of the image table: primary keys are distinct and each
product has at most one primary image. -/
def ImageDBWF (db : List ProductImage) : Prop :=
  (pks db).Nodup ∧ ∀ productId, countPrimary productId db ≤ 1

theorem clearPrimaryRow_pk (productId : Nat) (r : ProductImage) :
    (clearPrimaryRow productId r).pk = r.pk := by
  unfold clearPrimaryRow; split_ifs <;> rfl

theorem replaceRow_pk (img r : ProductImage) :
    (if r.pk == img.pk then img else r).pk = r.pk := by
  split_ifs with h
  · simp only [beq_iff_eq] at h; omega
  · rfl

theorem pks_map_clear (productId : Nat) (db : List ProductImage) :
    pks (db.map (clearPrimaryRow productId)) = pks db := by
  unfold pks
  induction db with
  | nil => rfl
  | cons a t ih => simp only [List.map_cons, clearPrimaryRow_pk, ih]

theorem pks_map_replace (img : ProductImage) (db : List ProductImage) :
    pks (db.map (fun r => if r.pk == img.pk then img else r)) = pks db := by
  unfold pks
  induction db with
  | nil => rfl
  | cons a t ih => simp only [List.map_cons, replaceRow_pk, ih]

theorem countPrimary_clear_self (productId : Nat) (db : List ProductImage) :
    countPrimary productId (db.map (clearPrimaryRow productId)) = 0 := by
  unfold countPrimary
  rw [List.countP_map]
  apply List.countP_eq_zero.mpr
  intro r _
  simp only [Function.comp, isPrimaryFor, clearPrimaryRow]
  split_ifs with hc <;> simp_all

theorem countPrimary_replace_le (productId : Nat) (img : ProductImage)
    (db : List ProductImage) (himg : isPrimaryFor productId img = false) :
    countPrimary productId (db.map (fun r => if r.pk == img.pk then img else r))
      ≤ countPrimary productId db := by
  unfold countPrimary
  rw [List.countP_map]
  apply List.countP_mono_left
  intro r _ h
  simp only [Function.comp] at h
  split_ifs at h
  · rw [himg] at h; cases h
  · exact h

theorem countPrimary_replace_le_count (productId : Nat) (img : ProductImage)
    (db : List ProductImage) (hzero : countPrimary productId db = 0) :
    countPrimary productId (db.map (fun r => if r.pk == img.pk then img else r))
      ≤ List.count img.pk (pks db) := by
  unfold countPrimary pks
  rw [List.countP_map, List.count_eq_countP, List.countP_map]
  apply List.countP_mono_left
  intro r hr h
  simp only [Function.comp] at h ⊢
  split_ifs at h with hpk
  · exact hpk
  · exact absurd h (List.countP_eq_zero.mp hzero r hr)

theorem isPrimaryFor_true (productId : Nat) (r : ProductImage)
    (h : isPrimaryFor productId r = true) :
    r.product = productId ∧ r.is_primary = true := by
  simpa [isPrimaryFor] using h

theorem countPrimary_append_one (productId : Nat) (db : List ProductImage)
    (img : ProductImage) :
    countPrimary productId (db ++ [img]) =
      countPrimary productId db + (if isPrimaryFor productId img then 1 else 0) := by
  unfold countPrimary
  rw [List.countP_append]
  simp [List.countP_cons]

theorem clear_mem_not_primary (productId : Nat) (db : List ProductImage)
    (r : ProductImage) (hr : r ∈ db.map (clearPrimaryRow productId))
    (hprod : r.product = productId) : r.is_primary = false := by
  obtain ⟨r0, _, hmap⟩ := List.mem_map.mp hr
  unfold clearPrimaryRow at hmap
  split_ifs at hmap with hc
  · rw [← hmap]
  · subst hmap
    cases hb : r0.is_primary
    · rfl
    · exact absurd ⟨hprod, hb⟩ hc

theorem countPrimary_clear_le (productId targetId : Nat) (db : List ProductImage) :
    countPrimary productId (db.map (clearPrimaryRow targetId))
      ≤ countPrimary productId db := by
  unfold countPrimary
  rw [List.countP_map]
  apply List.countP_mono_left
  intro r _ h
  simp only [Function.comp, isPrimaryFor, clearPrimaryRow] at h ⊢
  split_ifs at h with hc
  · simp_all
  · exact h

/-- The framework upsert keeps the table well-formed, provided the saved image
is not primary for a product that already has a primary row. -/
theorem upsertRow_pres (img : ProductImage) (db : List ProductImage)
    (hnd : (pks db).Nodup)
    (hc : ∀ productId, countPrimary productId db ≤ 1)
    (hself : isPrimaryFor img.product img = true →
      countPrimary img.product db = 0) :
    ImageDBWF (upsertRow img db) := by
  unfold upsertRow
  split_ifs with hany
  · refine ⟨?_, ?_⟩
    · rw [pks_map_replace]; exact hnd
    · intro productId
      by_cases hp : isPrimaryFor productId img = true
      · obtain ⟨hpid, hprim⟩ := isPrimaryFor_true productId img hp
        have h0 : countPrimary productId db = 0 := by
          rw [← hpid]
          exact hself (by simp [isPrimaryFor, hprim])
        refine le_trans (countPrimary_replace_le_count productId img db h0) ?_
        exact List.nodup_iff_count_le_one.mp hnd img.pk
      · refine le_trans
          (countPrimary_replace_le productId img db (by simpa using hp)) ?_
        exact hc productId
  · refine ⟨?_, ?_⟩
    · unfold pks
      rw [List.map_append, List.nodup_append]
      refine ⟨hnd, by simp, ?_⟩
      intro a ha hb
      simp only [List.map_cons, List.map_nil, List.mem_singleton] at hb
      subst hb
      rw [List.any_eq_true] at hany
      push_neg at hany
      obtain ⟨r0, hr0, hmap⟩ := List.mem_map.mp ha
      exact hany r0 hr0 (by simp [hmap])
    · intro productId
      rw [countPrimary_append_one]
      by_cases hp : isPrimaryFor productId img = true
      · obtain ⟨hpid, hprim⟩ := isPrimaryFor_true productId img hp
        have h0 : countPrimary productId db = 0 := by
          rw [← hpid]
          exact hself (by simp [isPrimaryFor, hprim])
        simp [h0, hp]
      · simp only [hp, Bool.false_eq_true, if_false]
        simpa using hc productId

/-- A single `ProductImage.save` preserves well-formedness of the image
table. -/
theorem save_preserves_ImageDBWF (img : ProductImage) (db : List ProductImage)
    (h : ImageDBWF db) : ImageDBWF (ProductImage.save img db) := by
  obtain ⟨hnd, hcount⟩ := h
  unfold ProductImage.save
  by_cases hp : img.is_primary = true
  · rw [if_pos hp]
    refine upsertRow_pres img _ ?_ ?_ ?_
    · rw [pks_map_clear]; exact hnd
    · intro productId
      exact le_trans (countPrimary_clear_le productId img.product db)
        (hcount productId)
    · intro _
      exact countPrimary_clear_self _ _
  · rw [if_neg hp]
    refine upsertRow_pres img db hnd hcount ?_
    intro hcontra
    exact absurd (isPrimaryFor_true _ _ hcontra).2 hp

/-- Replaying a sequence of image saves (the only mutation path in the
model). -/
def applyImageSaves (ops : List ProductImage) (db : List ProductImage) :
    List ProductImage :=
  ops.foldl (fun acc img => ProductImage.save img acc) db

theorem applyImageSaves_WF (ops : List ProductImage) (db : List ProductImage)
    (h : ImageDBWF db) : ImageDBWF (applyImageSaves ops db) := by
  induction ops generalizing db with
  | nil => exact h
  | cons a t ih => exact ih _ (save_preserves_ImageDBWF a db h)

/-- C6: after any sequence of `ProductImage.save` operations starting from an
empty table, every product has at most one primary image; moreover a save of
a primary image clears `is_primary` on every other image of the same
product. -/
theorem C6_one_primary_per_product :
    (∀ (ops : List ProductImage) (productId : Nat),
      countPrimary productId (applyImageSaves ops []) ≤ 1)
    ∧ (∀ (img : ProductImage) (db : List ProductImage), img.is_primary = true →
      ∀ r ∈ ProductImage.save img db, r.pk ≠ img.pk → r.product = img.product →
        r.is_primary = false) := by
  constructor
  · intro ops productId
    exact (applyImageSaves_WF ops [] ⟨by simp [pks], by simp [countPrimary]⟩).2 productId
  · intro img db hprim r hr hpk hprod
    unfold ProductImage.save upsertRow at hr
    rw [if_pos hprim] at hr
    split_ifs at hr with hany
    · obtain ⟨r1, hr1, hmap⟩ := List.mem_map.mp hr
      split_ifs at hmap with hpkeq
      · subst hmap; exact absurd rfl hpk
      · subst hmap
        exact clear_mem_not_primary img.product db r1 hr1 hprod
    · rw [List.mem_append] at hr
      rcases hr with hr | hr
      · exact clear_mem_not_primary img.product db r hr hprod
      · simp only [List.mem_singleton] at hr
        subst hr
        exact absurd rfl hpk

/-- Witness for C6: two primary images saved in turn for product 1 leave at
most one primary row, and a primary save demotes the older image. -/
theorem C6_one_primary_per_product_witness :
    countPrimary 1 (applyImageSaves [⟨1, 1, true⟩, ⟨2, 1, true⟩] []) ≤ 1
    ∧ (⟨1, 1, false⟩ : ProductImage).is_primary = false := by
  refine ⟨C6_one_primary_per_product.1 [⟨1, 1, true⟩, ⟨2, 1, true⟩] 1, ?_⟩
  exact C6_one_primary_per_product.2 ⟨2, 1, true⟩ [⟨1, 1, true⟩] rfl
    ⟨1, 1, false⟩ (by decide) (by decide) rfl

/-- The fields of `payments.models.MpesaTransaction` that the periodic tasks
in `payments/tasks.py` read or write. -/
structure MpesaTransaction where
  id : Nat
  status : String
  initiated_at : Int
  failed_at : Option Int
  result_desc : String
  result_code : Option Int
  amount : ℚ
  checkout_request_id : String
deriving DecidableEq

/-- The fields of `payments.models.MpesaRefund` used by the daily
reconciliation. -/
structure MpesaRefund where
  id : Nat
  status : String
  amount : ℚ
  initiated_at : Int
deriving DecidableEq

/-- The transaction status enumeration of the payment lifecycle. -/
def validStatuses : List String :=
  ["pending", "processing", "completed", "failed", "cancelled", "timeout"]

/-- Side effects dispatched by the payment tasks (asynchronous email /
alert task enqueues). -/
inductive PayEvent where
  | confirmationEmail (txId : Nat)
  | failureEmail (txId : Nat)
  | adminAlert (txId : Option Nat) (alertType : String)
deriving DecidableEq

/-- Per-row effect of `auto_timeout_stuck_transactions`
(payments/tasks.py:373-416): a transaction stuck in `processing` for at
least two hours (7200 seconds) is marked `timeout` with a result
description and `failed_at` stamp. -/
def timeoutSweepTx (now : Int) (t : MpesaTransaction) : MpesaTransaction :=
  if t.status = "processing" ∧ t.initiated_at ≤ now - 2 * 3600 then
    { t with status := "timeout", result_desc := "Transaction timed out - no response from M-Pesa", failed_at := some now }
  else t

/-- `auto_timeout_stuck_transactions` (payments/tasks.py:373-416) over the
whole transaction table: returns the updated table and the notification
tasks enqueued (a failure email and an admin alert per timed-out
transaction). -/
def auto_timeout_stuck_transactions (now : Int) (db : List MpesaTransaction) :
    List MpesaTransaction × List PayEvent :=
  (db.map (timeoutSweepTx now),
   (db.filter fun t =>
      decide (t.status = "processing" ∧ t.initiated_at ≤ now - 2 * 3600)).flatMap
     fun t => [PayEvent.failureEmail t.id,
       PayEvent.adminAlert (some t.id) "Transaction Timeout"])

/-- C1: the hourly timeout sweep sets status `timeout` (with `failed_at` and
a timeout result description) for exactly the transactions that are in
`processing` and were initiated at least 2 hours before the sweep time,
leaves every other transaction unchanged, and afterwards every status is
still one of the six enumerated statuses. -/
theorem C1_timeout_sweep (now : Int) (db : List MpesaTransaction)
    (hvalid : ∀ t ∈ db, t.status ∈ validStatuses) :
    (auto_timeout_stuck_transactions now db).1 = db.map (timeoutSweepTx now)
    ∧ (∀ t ∈ db,
      (t.status = "processing" → t.initiated_at ≤ now - 2 * 3600 →
        (timeoutSweepTx now t).status = "timeout"
        ∧ (timeoutSweepTx now t).failed_at = some now
        ∧ (timeoutSweepTx now t).result_desc =
          "Transaction timed out - no response from M-Pesa")
      ∧ (¬(t.status = "processing" ∧ t.initiated_at ≤ now - 2 * 3600) →
        timeoutSweepTx now t = t))
    ∧ (∀ t ∈ (auto_timeout_stuck_transactions now db).1,
      t.status ∈ validStatuses) := by
  refine ⟨rfl, ?_, ?_⟩
  · intro t _
    constructor
    · intro h1 h2
      unfold timeoutSweepTx
      rw [if_pos ⟨h1, h2⟩]
      exact ⟨rfl, rfl, rfl⟩
    · intro h
      unfold timeoutSweepTx
      rw [if_neg h]
  · intro t' ht'
    obtain ⟨t, ht, rfl⟩ := List.mem_map.mp ht'
    unfold timeoutSweepTx
    split_ifs
    · simp [validStatuses]
    · exact hvalid t ht

/-- A transaction stuck in `processing` since time 0. -/
def stuckTx : MpesaTransaction :=
  { id := 2, status := "processing", initiated_at := 0, failed_at := none,
    result_desc := "", result_code := none, amount := 50,
    checkout_request_id := "c2" }

/-- Witness for C1: sweeping at time 7200 times out `stuckTx` (exactly 2
hours old). -/
theorem C1_timeout_sweep_witness :
    (timeoutSweepTx 7200 stuckTx).status = "timeout"
    ∧ (timeoutSweepTx 7200 stuckTx).failed_at = some 7200 := by
  have h := C1_timeout_sweep 7200 [stuckTx] (by decide)
  have h2 := (h.2.1 stuckTx (by decide)).1 rfl (by decide)
  exact ⟨h2.1, h2.2.1⟩

/-- `check_pending_transactions` (payments/tasks.py:312-370): select the
transactions that are `processing`, initiated at least 5 minutes ago and
have a non-empty `checkout_request_id`; re-query each one's status against
the payment provider (`service.check_payment_status`, external code,
passed in as `query`), and enqueue a confirmation email when the re-queried
status is `completed` or a failure email when it is `failed`, `cancelled`
or `timeout`.  Returns the examined transactions and the enqueued
notifications. -/
def check_pending_transactions (now : Int)
    (query : String → Option MpesaTransaction) (db : List MpesaTransaction) :
    List MpesaTransaction × List PayEvent :=
  let pending := db.filter fun t =>
    decide (t.status = "processing") && decide (t.initiated_at ≤ now - 5 * 60)
      && decide (t.checkout_request_id ≠ "")
  (pending,
   pending.flatMap fun t =>
     match query t.checkout_request_id with
     | some ut =>
       if ut.status ≠ "processing" then
         if ut.status = "completed" then [PayEvent.confirmationEmail ut.id]
         else if ut.status = "failed" ∨ ut.status = "cancelled" ∨ ut.status = "timeout" then
           [PayEvent.failureEmail ut.id]
         else []
       else []
     | none => [])

/-- A `processing` transaction whose `checkout_request_id` is empty. -/
def emptyCidTx : MpesaTransaction :=
  { id := 3, status := "processing", initiated_at := 0, failed_at := none,
    result_desc := "", result_code := none, amount := 10,
    checkout_request_id := "" }

/-- A re-query result reporting the transaction as completed. -/
def completedResult : MpesaTransaction :=
  { emptyCidTx with status := "completed", checkout_request_id := "c9" }

/-- A provider oracle that always reports the transaction as completed. -/
def alwaysCompletedQuery : String → Option MpesaTransaction :=
  fun _ => some completedResult

/-- Counterexample to C2: `emptyCidTx` has been processing for more than 5
minutes and its re-queried status would be `completed`, yet the sweep
neither examines it nor dispatches any notification, because the query
excludes transactions with an empty `checkout_request_id`. -/
theorem C2_counterexample :
    emptyCidTx.status = "processing"
    ∧ (1000 : Int) - emptyCidTx.initiated_at > 5 * 60
    ∧ (alwaysCompletedQuery emptyCidTx.checkout_request_id).map
        (fun t => t.status) = some "completed"
    ∧ (check_pending_transactions 1000 alwaysCompletedQuery [emptyCidTx]).1 = []
    ∧ (check_pending_transactions 1000 alwaysCompletedQuery [emptyCidTx]).2 = [] := by
  decide

/-- C2 amended: the reconciliation sweep examines exactly the transactions
that are `processing`, at least 5 minutes old and have a non-empty
`checkout_request_id`; transactions younger than 5 minutes are never
examined; and for each examined transaction whose re-queried status is
`completed` a confirmation notification is dispatched, while `failed`,
`cancelled` or `timeout` dispatches a failure notification. -/
theorem C2_pending_sweep (now : Int)
    (query : String → Option MpesaTransaction) (db : List MpesaTransaction) :
    ((check_pending_transactions now query db).1 =
      db.filter fun t => decide (t.status = "processing")
        && decide (t.initiated_at ≤ now - 5 * 60)
        && decide (t.checkout_request_id ≠ ""))
    ∧ (∀ t ∈ db, now - t.initiated_at < 5 * 60 →
      t ∉ (check_pending_transactions now query db).1)
    ∧ (∀ t ∈ (check_pending_transactions now query db).1,
      ∀ ut : MpesaTransaction, query t.checkout_request_id = some ut →
        (ut.status = "completed" →
          PayEvent.confirmationEmail ut.id ∈ (check_pending_transactions now query db).2)
        ∧ ((ut.status = "failed" ∨ ut.status = "cancelled" ∨ ut.status = "timeout") →
          PayEvent.failureEmail ut.id ∈ (check_pending_transactions now query db).2)) := by
  refine ⟨rfl, ?_, ?_⟩
  · intro t _ hyoung hmem
    have hf := (List.mem_filter.mp hmem).2
    simp only [Bool.and_eq_true, decide_eq_true_eq] at hf
    obtain ⟨⟨_, hle⟩, _⟩ := hf
    omega
  · intro t ht ut hq
    constructor
    · intro hs
      refine List.mem_flatMap.mpr ⟨t, ht, ?_⟩
      simp [hq, hs]
    · intro hs
      refine List.mem_flatMap.mpr ⟨t, ht, ?_⟩
      rcases hs with hs | hs | hs <;> simp [hq, hs]

/-- A `processing` transaction eligible for the reconciliation sweep. -/
def procTx : MpesaTransaction :=
  { id := 4, status := "processing", initiated_at := 0, failed_at := none,
    result_desc := "", result_code := none, amount := 20,
    checkout_request_id := "c9" }

/-- Witness for the amended C2: the sweep over `procTx` (re-queried as
completed) dispatches a confirmation email. -/
theorem C2_pending_sweep_witness :
    PayEvent.confirmationEmail 3 ∈
      (check_pending_transactions 1000 alwaysCompletedQuery [procTx]).2 := by
  have h := C2_pending_sweep 1000 alwaysCompletedQuery [procTx]
  exact (h.2.2 procTx (by decide) completedResult rfl).1 rfl

/-- The retry-relevant part of a task request context: `self.request.retries`
and the task's `max_retries` setting (3 for the callback task). -/
structure TaskCtx where
  retries : Nat
  maxRetries : Nat
deriving DecidableEq

/-- Python exceptions that can terminate the callback task.  The task
framework's `Retry` and `MaxRetriesExceededError` both inherit from
`Exception`, so a bare `except Exception` clause catches them. -/
inductive PyExc where
  | retry (countdown : Nat)
  | maxRetriesExceeded
  | other
deriving DecidableEq

/-- Outcome of one run of a task body: a returned value or a propagated
exception. -/
inductive TaskResult where
  | success
  | raised (e : PyExc)
deriving DecidableEq

/-- The task framework's `self.retry(exc=..., countdown=...)`: while under
the retry limit it (re-enqueues the task and) raises `Retry` carrying the
countdown; once `retries + 1` exceeds `max_retries` it re-raises the passed
exception, or `MaxRetriesExceededError` when none was passed. -/
def selfRetry (ctx : TaskCtx) (exc : Option PyExc) (countdown : Nat) : PyExc :=
  if ctx.retries + 1 > ctx.maxRetries then exc.getD PyExc.maxRetriesExceeded
  else PyExc.retry countdown

/-- `process_mpesa_callback_task` (payments/tasks.py:29-59).  The processor
result is `some true` (success), `some false` (reported failure) or `none`
(the processor raised).  On a reported failure the body executes
`raise self.retry(countdown=30 * (2 ** retries))` inside the `try` block;
the raised `Retry` (or `MaxRetriesExceededError`) is an `Exception`, so the
`except Exception` clause catches it and runs
`self.retry(exc=exc, countdown=60 * (2 ** retries))`, whose exception is
what the task finally raises. -/
def process_mpesa_callback_task (ctx : TaskCtx) (procResult : Option Bool) :
    TaskResult :=
  match
    (match procResult with
     | some true => TaskResult.success
     | some false => TaskResult.raised (selfRetry ctx none (30 * 2 ^ ctx.retries))
     | none => TaskResult.raised PyExc.other)
  with
  | TaskResult.success => TaskResult.success
  | TaskResult.raised e =>
    TaskResult.raised (selfRetry ctx (some e) (60 * 2 ^ ctx.retries))

/-- Counterexample to C5: on the first reported failure (retries = 0) the
claim predicts a retry with the 30-second base countdown, but the task's
final retry countdown is 60 seconds — the inner `Retry` is caught by
`except Exception` and superseded by the 60-second-base retry. -/
theorem C5_counterexample :
    process_mpesa_callback_task ⟨0, 3⟩ (some false)
      = TaskResult.raised (PyExc.retry 60)
    ∧ process_mpesa_callback_task ⟨0, 3⟩ (some false)
      ≠ TaskResult.raised (PyExc.retry 30) := by
  decide

/-- C5 amended: with `max_retries = 3`, a successful processing returns
success without scheduling a retry; any unsuccessful processing (reported
failure or raised exception) with fewer than 3 prior retries ends in a
retry whose countdown is `60 * 2 ^ retries` (the 30-second-base retry
requested for a reported failure is caught by the general exception handler
and superseded); and once 3 retries have been used the task gives up — no
further retry is raised. -/
theorem C5_callback_retry (ctx : TaskCtx) (res : Option Bool)
    (hmax : ctx.maxRetries = 3) :
    (res = some true →
      process_mpesa_callback_task ctx res = TaskResult.success)
    ∧ (res ≠ some true → ctx.retries < 3 →
      process_mpesa_callback_task ctx res
        = TaskResult.raised (PyExc.retry (60 * 2 ^ ctx.retries)))
    ∧ (res ≠ some true → 3 ≤ ctx.retries →
      ∀ c : Nat, process_mpesa_callback_task ctx res
        ≠ TaskResult.raised (PyExc.retry c)) := by
  refine ⟨?_, ?_, ?_⟩
  · rintro rfl; rfl
  · intro hne hlt
    have hcond : ¬(ctx.retries + 1 > ctx.maxRetries) := by omega
    rcases res with _ | b
    · simp [process_mpesa_callback_task, selfRetry, hcond]
    · cases b
      · simp [process_mpesa_callback_task, selfRetry, hcond]
      · exact absurd rfl hne
  · intro hne hge c
    have hcond : ctx.retries + 1 > ctx.maxRetries := by omega
    rcases res with _ | b
    · simp [process_mpesa_callback_task, selfRetry, hcond]
    · cases b
      · simp [process_mpesa_callback_task, selfRetry, hcond]
      · exact absurd rfl hne

/-- Witness for the amended C5: success returns success; a raised exception
at retries = 1 ends in a retry with countdown 120; at retries = 3 no retry
is raised. -/
theorem C5_callback_retry_witness :
    process_mpesa_callback_task ⟨0, 3⟩ (some true) = TaskResult.success
    ∧ process_mpesa_callback_task ⟨1, 3⟩ none
      = TaskResult.raised (PyExc.retry (60 * 2 ^ 1))
    ∧ process_mpesa_callback_task ⟨3, 3⟩ none
      ≠ TaskResult.raised (PyExc.retry 480) := by
  refine ⟨(C5_callback_retry ⟨0, 3⟩ (some true) rfl).1 rfl, ?_, ?_⟩
  · exact (C5_callback_retry ⟨1, 3⟩ none rfl).2.1 (by simp) (by decide)
  · exact (C5_callback_retry ⟨3, 3⟩ none rfl).2.2 (by simp) (by decide) 480

/-- Calendar day of a timestamp in the model (86400 seconds per day); stands
for `initiated_at__date`. -/
def dayOf (t : Int) : Int := t / 86400

/-- The report dictionary built by `reconcile_daily_transactions`. -/
structure ReconReport where
  total : Nat
  successful : Nat
  failed : Nat
  pending : Nat
  cancelled : Nat
  gross_revenue : ℚ
  refunds : ℚ
  net_revenue : ℚ
  success_rate : ℚ
deriving DecidableEq

/-- `reconcile_daily_transactions` (payments/tasks.py:532-617): aggregate
the day's transactions into counts (successful counts `completed` with
`result_code = 0`; pending counts `pending` and `processing`; cancelled
counts `cancelled` and `timeout`), gross revenue, completed-refund total and
net revenue, with a success rate of 0 when there are no transactions. -/
def reconcile_daily_transactions (now : Int) (txdb : List MpesaTransaction)
    (refdb : List MpesaRefund) : ReconReport :=
  let today := dayOf now
  let transactions := txdb.filter fun t => decide (dayOf t.initiated_at = today)
  let successfulL := transactions.filter fun t =>
    decide (t.status = "completed" ∧ t.result_code = some 0)
  let total_amount := (successfulL.map fun t => t.amount).sum
  let refundsToday := refdb.filter fun r => decide (dayOf r.initiated_at = today)
  let refund_amount :=
    ((refundsToday.filter fun r => decide (r.status = "completed")).map
      fun r => r.amount).sum
  { total := transactions.length
    successful := successfulL.length
    failed := (transactions.filter fun t => decide (t.status = "failed")).length
    pending := (transactions.filter fun t =>
      decide (t.status = "pending" ∨ t.status = "processing")).length
    cancelled := (transactions.filter fun t =>
      decide (t.status = "cancelled" ∨ t.status = "timeout")).length
    gross_revenue := total_amount
    refunds := refund_amount
    net_revenue := total_amount - refund_amount
    success_rate := if 0 < transactions.length then
      (successfulL.length : ℚ) / (transactions.length : ℚ) * 100 else 0 }

/-- A transaction completed with a nonzero M-Pesa result code. -/
def oddCompletedTx : MpesaTransaction :=
  { id := 5, status := "completed", initiated_at := 0, failed_at := none,
    result_desc := "", result_code := some 1, amount := 100,
    checkout_request_id := "c5" }

/-- Counterexample to C4: a day holding one `completed` transaction whose
`result_code` is 1 has outcome counts summing to 0 while the total is 1 —
the `successful` bucket requires `result_code = 0`, so this transaction
falls outside all four buckets and the counts do not partition the total. -/
theorem C4_counterexample :
    (reconcile_daily_transactions 0 [oddCompletedTx] []).total = 1
    ∧ (reconcile_daily_transactions 0 [oddCompletedTx] []).successful
      + (reconcile_daily_transactions 0 [oddCompletedTx] []).failed
      + (reconcile_daily_transactions 0 [oddCompletedTx] []).pending
      + (reconcile_daily_transactions 0 [oddCompletedTx] []).cancelled = 0 := by
  decide

theorem countP_status_partition (l : List MpesaTransaction)
    (hv : ∀ t ∈ l, t.status ∈ validStatuses)
    (hc : ∀ t ∈ l, t.status = "completed" → t.result_code = some 0) :
    (l.countP fun t => decide (t.status = "completed" ∧ t.result_code = some 0))
      + (l.countP fun t => decide (t.status = "failed"))
      + (l.countP fun t => decide (t.status = "pending" ∨ t.status = "processing"))
      + (l.countP fun t => decide (t.status = "cancelled" ∨ t.status = "timeout"))
      = l.length := by
  induction l with
  | nil => rfl
  | cons a l ih =>
    have ha := hv a (List.mem_cons_self a l)
    have hca := hc a (List.mem_cons_self a l)
    have hrec := ih (fun t ht => hv t (List.mem_cons_of_mem a ht))
      (fun t ht hs => hc t (List.mem_cons_of_mem a ht) hs)
    simp only [List.countP_cons, List.length_cons]
    have hone :
        (if (decide (a.status = "completed" ∧ a.result_code = some 0)) = true
          then 1 else 0)
        + (if decide (a.status = "failed") = true then 1 else 0)
        + (if decide (a.status = "pending" ∨ a.status = "processing") = true
          then 1 else 0)
        + (if decide (a.status = "cancelled" ∨ a.status = "timeout") = true
          then 1 else 0) = 1 := by
      simp only [validStatuses, List.mem_cons, List.not_mem_nil, or_false] at ha
      rcases ha with h | h | h | h | h | h <;>
        simp [h, hca]
    omega

/-- C4 amended: for a day in which every completed transaction carries
result code 0, the outcome counts partition the total
(successful + failed + pending + cancelled = total); net revenue always
equals gross revenue (the sum of the day's completed transaction amounts)
minus the day's completed refund amounts; and the success rate is 0 when
there are no transactions.  (Without the result-code hypothesis a completed
transaction with a nonzero result code falls outside all four buckets, as
`C4_counterexample` shows.) -/
theorem C4_daily_reconciliation (now : Int) (txdb : List MpesaTransaction)
    (refdb : List MpesaRefund)
    (hv : ∀ t ∈ txdb, t.status ∈ validStatuses)
    (hc : ∀ t ∈ txdb, t.status = "completed" → t.result_code = some 0) :
    (reconcile_daily_transactions now txdb refdb).successful
      + (reconcile_daily_transactions now txdb refdb).failed
      + (reconcile_daily_transactions now txdb refdb).pending
      + (reconcile_daily_transactions now txdb refdb).cancelled
      = (reconcile_daily_transactions now txdb refdb).total
    ∧ (reconcile_daily_transactions now txdb refdb).net_revenue
      = (reconcile_daily_transactions now txdb refdb).gross_revenue
        - (reconcile_daily_transactions now txdb refdb).refunds
    ∧ (reconcile_daily_transactions now txdb refdb).gross_revenue
      = (((txdb.filter fun t => decide (dayOf t.initiated_at = dayOf now)).filter
          fun t => decide (t.status = "completed")).map fun t => t.amount).sum
    ∧ (reconcile_daily_transactions now txdb refdb).refunds
      = (((refdb.filter fun r => decide (dayOf r.initiated_at = dayOf now)).filter
          fun r => decide (r.status = "completed")).map fun r => r.amount).sum
    ∧ ((reconcile_daily_transactions now txdb refdb).total = 0 →
      (reconcile_daily_transactions now txdb refdb).success_rate = 0) := by
  have hcr : ∀ t ∈ txdb.filter (fun t => decide (dayOf t.initiated_at = dayOf now)),
      t.status = "completed" → t.result_code = some 0 :=
    fun t ht => hc t (List.mem_filter.mp ht).1
  refine ⟨?_, rfl, ?_, rfl, ?_⟩
  · simp only [reconcile_daily_transactions]
    rw [← List.countP_eq_length_filter, ← List.countP_eq_length_filter,
      ← List.countP_eq_length_filter, ← List.countP_eq_length_filter]
    exact countP_status_partition _
      (fun t ht => hv t (List.mem_filter.mp ht).1) hcr
  · simp only [reconcile_daily_transactions]
    have hfeq : (txdb.filter fun t => decide (dayOf t.initiated_at = dayOf now)).filter
        (fun t => decide (t.status = "completed" ∧ t.result_code = some 0))
        = (txdb.filter fun t => decide (dayOf t.initiated_at = dayOf now)).filter
          (fun t => decide (t.status = "completed")) := by
      apply List.filter_congr
      intro t ht
      by_cases hs : t.status = "completed"
      · simp [hs, hcr t ht hs]
      · simp [hs]
    rw [hfeq]
  · intro h0
    simp only [reconcile_daily_transactions] at h0 ⊢
    rw [if_neg]
    omega

/-- A transaction completed normally (result code 0). -/
def goodTx : MpesaTransaction :=
  { id := 6, status := "completed", initiated_at := 100, failed_at := none,
    result_desc := "", result_code := some 0, amount := 100,
    checkout_request_id := "c6" }

/-- A completed refund of 30 on the same day. -/
def doneRefund : MpesaRefund :=
  { id := 1, status := "completed", amount := 30, initiated_at := 200 }

/-- Witness for the amended C4 on a concrete day: one good transaction and
one completed refund give counts that partition the total and net revenue
equal to gross minus refunds. -/
theorem C4_daily_reconciliation_witness :
    (reconcile_daily_transactions 0 [goodTx] [doneRefund]).successful
      + (reconcile_daily_transactions 0 [goodTx] [doneRefund]).failed
      + (reconcile_daily_transactions 0 [goodTx] [doneRefund]).pending
      + (reconcile_daily_transactions 0 [goodTx] [doneRefund]).cancelled
      = (reconcile_daily_transactions 0 [goodTx] [doneRefund]).total
    ∧ (reconcile_daily_transactions 0 [goodTx] [doneRefund]).net_revenue
      = (reconcile_daily_transactions 0 [goodTx] [doneRefund]).gross_revenue
        - (reconcile_daily_transactions 0 [goodTx] [doneRefund]).refunds := by
  have h := C4_daily_reconciliation 0 [goodTx] [doneRefund] (by decide) (by decide)
  exact ⟨h.1, h.2.1⟩

/-- One requested order line: a product id and a quantity. -/
structure OrderLine where
  productId : Nat
  quantity : Int
deriving DecidableEq

/-- Modelled from the spec: `inventory.models.WarehouseStock` is referenced
by `sync_product_stock_from_warehouses` (inventory/tasks.py:1499-1529) but
its model file is not part of the source snapshot; the spec lists "stock
non-negative" among the invariants enforced in save hooks, so per-warehouse
quantities are modelled as naturals.  A warehouse-stock table is a list of
(product id, quantity) rows, and `warehouseTotal` is the task's
`aggregate(total=Sum('quantity'))['total'] or 0` for one product. -/
def warehouseTotal (wdb : List (Nat × Nat)) (productId : Nat) : Nat :=
  ((wdb.filter fun w => w.1 == productId).map fun w => w.2).sum

/-- State visible to the stock-mutating operations: the per-product
`stock_quantity` column and the items of the orders placed so far (a
cancelled order is replaced by `[]`, mirroring that its status leaves
`pending` and it can no longer be auto-cancelled). -/
structure StockState where
  stock : Nat → Int
  orders : List (List OrderLine)

/-- The operations of the system that write `Product.stock_quantity`:
order placement (orders/serializers.py:269-300 validation and 501-520
stock write), the auto-cancel restock task (orders/tasks.py:370-395), the
`update_stock` endpoint (products/views.py:320-355) and the warehouse sync
task (inventory/tasks.py:1499-1529). -/
inductive StockOp where
  | createOrder (items : List OrderLine)
  | cancelOrder (idx : Nat)
  | updateStock (productId : Nat) (quantity : Int)
  | warehouseSync (wdb : List (Nat × Nat))

/-- One stock write during order creation
(orders/serializers.py:518-520): each order item holds the product instance
fetched at validation time, so `product.stock_quantity -= quantity;
product.save()` writes the pre-order stock value minus the item quantity. -/
def orderWrite (pre : Nat → Int) (s : Nat → Int) (it : OrderLine) : Nat → Int :=
  fun pid => if pid = it.productId then pre it.productId - it.quantity else s pid

/-- One restock write during order auto-cancellation
(orders/tasks.py:391-393): `item.product.stock_quantity += item.quantity`
reads the current stock of the item's product and adds the quantity. -/
def restockWrite (s : Nat → Int) (it : OrderLine) : Nat → Int :=
  fun pid => if pid = it.productId then s it.productId + it.quantity else s pid

/-- Semantics of one stock-mutating operation.  Order creation runs only
when `validate_items` passes (non-empty items, each quantity at least 1 and
at most the available stock); the `update_stock` endpoint rejects negative
quantities; the warehouse sync rewrites every product's stock to its
warehouse total. -/
def applyStockOp (st : StockState) : StockOp → StockState
  | StockOp.createOrder items =>
    if items ≠ [] ∧ ∀ it ∈ items, 1 ≤ it.quantity ∧ it.quantity ≤ st.stock it.productId then
      { stock := items.foldl (orderWrite st.stock) st.stock,
        orders := st.orders ++ [items] }
    else st
  | StockOp.cancelOrder idx =>
    { stock := (st.orders.getD idx []).foldl restockWrite st.stock,
      orders := st.orders.set idx [] }
  | StockOp.updateStock productId quantity =>
    if quantity < 0 then st
    else { st with stock := fun pid => if pid = productId then quantity else st.stock pid }
  | StockOp.warehouseSync wdb =>
    { st with stock := fun pid => (warehouseTotal wdb pid : Int) }

/-- Replaying a sequence of stock-mutating operations. -/
def applyStockOps (ops : List StockOp) (st : StockState) : StockState :=
  ops.foldl applyStockOp st

theorem foldl_orderWrite_spec (pre : Nat → Int) (items : List OrderLine)
    (acc : Nat → Int) (pid : Nat) :
    (items.foldl (orderWrite pre) acc) pid = acc pid
    ∨ ∃ it ∈ items, it.productId = pid
      ∧ (items.foldl (orderWrite pre) acc) pid = pre it.productId - it.quantity := by
  induction items generalizing acc with
  | nil => exact Or.inl rfl
  | cons a t ih =>
    simp only [List.foldl_cons]
    rcases ih (orderWrite pre acc a) with h | ⟨it, hit, hpid, heq⟩
    · rw [h]
      by_cases hp : pid = a.productId
      · right
        exact ⟨a, List.mem_cons_self a t, hp.symm, by simp [orderWrite, hp]⟩
      · left
        simp [orderWrite, hp]
    · right
      exact ⟨it, List.mem_cons_of_mem a hit, hpid, heq⟩

theorem foldl_restock_nonneg (items : List OrderLine) (acc : Nat → Int)
    (hq : ∀ it ∈ items, 0 ≤ it.quantity) (hacc : ∀ pid, 0 ≤ acc pid) :
    ∀ pid, 0 ≤ (items.foldl restockWrite acc) pid := by
  induction items generalizing acc with
  | nil => exact hacc
  | cons a t ih =>
    simp only [List.foldl_cons]
    apply ih
    · intro it hit
      exact hq it (List.mem_cons_of_mem a hit)
    · intro pid
      have ha := hq a (List.mem_cons_self a t)
      have := hacc a.productId
      have := hacc pid
      simp only [restockWrite]
      split_ifs <;> omega

/-- The inductive invariant: stock is non-negative and every stored order
item has quantity at least 1 (established by `validate_items`). -/
def StockInv (st : StockState) : Prop :=
  (∀ pid, 0 ≤ st.stock pid) ∧ ∀ o ∈ st.orders, ∀ it ∈ o, 1 ≤ it.quantity

theorem applyStockOp_inv (st : StockState) (op : StockOp) (h : StockInv st) :
    StockInv (applyStockOp st op) := by
  obtain ⟨hs, ho⟩ := h
  cases op with
  | createOrder items =>
    simp only [applyStockOp]
    split_ifs with hg
    · obtain ⟨_, hq⟩ := hg
      constructor
      · intro pid
        show 0 ≤ (items.foldl (orderWrite st.stock) st.stock) pid
        rcases foldl_orderWrite_spec st.stock items st.stock pid with
          heq | ⟨it, hit, _, heq⟩
        · rw [heq]; exact hs pid
        · rw [heq]
          have := (hq it hit).2
          omega
      · intro o hoo it hit
        rcases List.mem_append.mp hoo with hmem | hmem
        · exact ho o hmem it hit
        · simp only [List.mem_singleton] at hmem
          subst hmem
          exact (hq it hit).1
    · exact ⟨hs, ho⟩
  | cancelOrder idx =>
    have hmem : ∀ it ∈ st.orders.getD idx [], 1 ≤ it.quantity := by
      by_cases hidx : idx < st.orders.length
      · intro it hit
        rw [List.getD_eq_getElem st.orders [] hidx] at hit
        exact ho _ (List.getElem_mem hidx) it hit
      · intro it hit
        rw [List.getD_eq_default st.orders [] (by omega)] at hit
        cases hit
    constructor
    · exact foldl_restock_nonneg _ _ (fun it hit => by have := hmem it hit; omega) hs
    · intro o hoo it hit
      rcases List.mem_or_eq_of_mem_set hoo with hmem2 | hmem2
      · exact ho o hmem2 it hit
      · subst hmem2; cases hit
  | updateStock productId quantity =>
    simp only [applyStockOp]
    split_ifs with hneg
    · exact ⟨hs, ho⟩
    · refine ⟨?_, ho⟩
      intro pid
      show 0 ≤ (if pid = productId then quantity else st.stock pid)
      split_ifs
      · omega
      · exact hs pid
  | warehouseSync wdb =>
    exact ⟨fun pid => Int.natCast_nonneg _, ho⟩

theorem applyStockOps_inv (ops : List StockOp) (st : StockState)
    (h : StockInv st) : StockInv (applyStockOps ops st) := by
  induction ops generalizing st with
  | nil => exact h
  | cons a t ih => exact ih _ (applyStockOp_inv st a h)

/-- C7: starting from any state with non-negative stock and no pending
orders, every sequence of the system's stock-mutating operations (order
placement, auto-cancel restock, the stock-update endpoint and the
warehouse sync task) keeps every product's `stock_quantity` non-negative. -/
theorem C7_stock_nonneg (ops : List StockOp) (init : StockState)
    (h0 : ∀ pid, 0 ≤ init.stock pid) (h1 : init.orders = []) :
    ∀ pid, 0 ≤ (applyStockOps ops init).stock pid := by
  have : StockInv init := by
    refine ⟨h0, ?_⟩
    intro o hoo
    rw [h1] at hoo
    cases hoo
  exact (applyStockOps_inv ops init this).1

/-- A concrete initial state: 10 units of every product, no orders. -/
def initialStockState : StockState :=
  { stock := fun _ => 10, orders := [] }

/-- A concrete run: place an order for 3 of product 1, auto-cancel it,
set product 2's stock to 5 through the endpoint, then sync from a
warehouse table. -/
def sampleStockOps : List StockOp :=
  [StockOp.createOrder [⟨1, 3⟩], StockOp.cancelOrder 0,
   StockOp.updateStock 2 5, StockOp.warehouseSync [(1, 4), (2, 0)]]

/-- Witness for C7: after the sample run, product 1's stock is still
non-negative. -/
theorem C7_stock_nonneg_witness :
    0 ≤ (applyStockOps sampleStockOps initialStockState).stock 1 :=
  C7_stock_nonneg sampleStockOps initialStockState
    (fun _ => by norm_num [initialStockState]) rfl 1
